import Mathlib

/-!
Verification of the python-mitel OMM client (`OMMClient/OMMClient.py`,
`OMMClient/messagehelper.py`, `OMMClient/types/LastPPAction.py`) against its
natural-language specification.

The Python code is shallowly embedded: Python dicts become association lists
that keep insertion order (first-occurrence key order, updates in place,
fresh keys appended at the end), the mutable `OMMClient` instance becomes an
explicit `SessionState` threaded through each operation, and each blocking
operation is modelled up to the point where the calling thread would block
(every externally visible effect before the block — queueing the outbound
message, registering a waiter, raising an exception — is captured).
-/

/-- Attribute map of an XML element: string keys to string values, in
document / insertion order (Python dict semantics). -/
abbrev AttrMap := List (String × String)

/-- Value stored under one child tag by `parse_message`: a single attribute
map for a tag seen once, an ordered list for a tag seen two or more times. -/
inductive ChildVal
  | one (m : AttrMap)
  | many (ms : List AttrMap)
deriving DecidableEq, Repr

/-- Decoded children mapping of `parse_message`: child tag to `ChildVal`,
keyed in first-occurrence order (Python dict). -/
abbrev Children := List (String × ChildVal)

/-- A single-root markup document, the tree that `construct_message` builds
with minidom and that `toxml` / `parseString` transport losslessly over the
wire (attribute values already stringified; the trailing NUL delimiter that
`parse_message` strips is below this abstraction). `children` lists the
child elements in document order, each with its attribute map. -/
structure Doc where
  name : String
  attributes : AttrMap
  children : List (String × AttrMap)
deriving DecidableEq, Repr

/-- Python `d[k]` lookup on an insertion-ordered dict modelled as an
association list (returns the first — in a dict, only — binding). -/
def dictGet {α : Type} : List (String × α) → String → Option α
  | [], _ => none
  | (k, v) :: rest, key => if k = key then some v else dictGet rest key

/-- Python `d[k] = v` on an insertion-ordered dict: overwrite in place if the
key is present, otherwise append the new binding at the end. -/
def dictSet {α : Type} : List (String × α) → String → α → List (String × α)
  | [], key, v => [(key, v)]
  | (k, w) :: rest, key, v =>
    if k = key then (key, v) :: rest else (k, w) :: dictSet rest key v

/-- messagehelper.construct_message: build the single-root document with the
given root name, root attributes and one child element per `children` entry
(a Python dict maps each child tag to exactly one attribute map, so the
encoder never emits two children with the same tag). -/
def construct_message (name : String) (attributes : AttrMap)
    (children : List (String × AttrMap)) : Doc :=
  ⟨name, attributes, children⟩

/-- One iteration of the child-folding loop of `parse_message`: if the tag is
new, store the attribute map as is (appended at the end, Python dict); if the
tag is already present as a single map, promote it to a two-element list; if
it is already a list, append. -/
def addChild : Children → String → AttrMap → Children
  | [], tag, m => [(tag, .one m)]
  | (t, v) :: rest, tag, m =>
    if t = tag then
      (t, match v with
          | .one m0 => .many [m0, m]
          | .many ms => .many (ms ++ [m])) :: rest
    else (t, v) :: addChild rest tag m

/-- The `while child is not None and child_num < 5000` loop of
`parse_message`: fold the children in document order into the dict, stopping
after `fuel` children (the defensive 5000 cap; further children are silently
ignored). -/
def parseChildren : List (String × AttrMap) → Nat → Children → Children
  | [], _, acc => acc
  | _ :: _, 0, acc => acc
  | (t, m) :: rest, n + 1, acc => parseChildren rest n (addChild acc t m)

/-- messagehelper.parse_message: decode a document into root name, root
attributes and the folded children dict (at most 5000 children processed). -/
def parse_message (d : Doc) : String × AttrMap × Children :=
  (d.name, d.attributes, parseChildren d.children 5000 [])

/-- The attribute maps of the children of a decode call that carry the given
tag, in document order. -/
def occurrences (t : String) (cs : List (String × AttrMap)) : List AttrMap :=
  cs.filterMap (fun p => if p.1 = t then some p.2 else none)

/-- Abstract effect of folding a run of same-tag occurrences onto an already
stored value: first occurrence stored as a single map, second promotes to a
two-element list, later ones append. -/
def foldOcc : Option ChildVal → List AttrMap → Option ChildVal
  | v, [] => v
  | none, m :: rest => foldOcc (some (.one m)) rest
  | some (.one m0), m :: rest => foldOcc (some (.many [m0, m])) rest
  | some (.many ms), m :: rest => foldOcc (some (.many (ms ++ [m]))) rest

/-! ## Session engine (OMMClient.py) -/

/-- One entry of the `_events` correlation table: the value Python stores is
a dict with a `threading.Event` and, once the dispatcher has routed the
matching reply, the raw response. `fired` models whether `event.set()` has
been called, `response` the stored raw response. -/
structure Waiter where
  response : Option Doc
  fired : Bool
deriving DecidableEq, Repr

/-- A waiter as `_awaitresponse` registers it: event created, not yet fired,
no response stored. -/
def freshWaiter : Waiter := ⟨none, false⟩

/-- The mutable state of one `OMMClient` instance, as observable by the
claims: the outbound send queue, the `_events` correlation table (an
insertion-ordered dict from correlation key to waiter), the `_sequence`
counter, the `_logged_in` flag and the stored public-key components. -/
structure SessionState where
  send_q : List Doc
  events : List (String × Waiter)
  sequence : Nat
  logged_in : Bool
  modulus : String
  exponent : String
deriving DecidableEq, Repr

/-- OMMClient._get_sequence: return the current counter and increment it
(the `_sequencelock` makes this atomic; callers are sequential here). -/
def getSequence (s : SessionState) : Nat × SessionState :=
  (s.sequence, { s with sequence := s.sequence + 1 })

/-- Outcome of `_sendrequest` up to the point where the caller would block:
either the duplicate-waiter exception of `_awaitresponse` escaped, or a
fresh waiter was registered and the caller is now waiting on its event. -/
inductive SendOutcome
  | dup (key : String)
  | waiting (key : String)
deriving DecidableEq, Repr

/-- The correlation key `_sendrequest` computes: the expected response tag
`message + "Resp"`, suffixed with the request's `seq` attribute when the
message data carries one. -/
def responseKey (message : String) (messagedata : List (String × String)) : String :=
  message ++ "Resp" ++ (match dictGet messagedata "seq" with
                        | some v => v
                        | none => "")

/-- OMMClient._sendrequest followed by the non-blocking prefix of
`_awaitresponse`: construct the message, put it on the send queue, then
check the correlation table — if the key already has a waiter the duplicate
exception is raised (note the message is on the send queue by then),
otherwise a fresh waiter is registered and the caller blocks. Attribute
values are modelled already stringified, as `construct_message` stringifies
them. -/
def sendrequestPre (s : SessionState) (message : String)
    (messagedata : List (String × String)) (children : List (String × AttrMap)) :
    SessionState × SendOutcome :=
  let msg := construct_message message messagedata children
  let s1 : SessionState := { s with send_q := s.send_q ++ [msg] }
  let key := responseKey message messagedata
  if (dictGet s1.events key).isSome then (s1, .dup key)
  else ({ s1 with events := s1.events ++ [(key, freshWaiter)] }, .waiting key)

/-- Outcome of a public command up to its first blocking point: the
not-logged-in exception of `_ensure_login`, the duplicate-waiter exception,
or a registered waiter the caller is blocked on. -/
inductive CmdOutcome
  | notLoggedIn
  | dup (key : String)
  | waiting (key : String)
deriving DecidableEq, Repr

/-- Lift a `_sendrequest` outcome into a command outcome. -/
def liftSend : SessionState × SendOutcome → SessionState × CmdOutcome
  | (s, .dup k) => (s, .dup k)
  | (s, .waiting k) => (s, .waiting k)

/-- OMMClient.get_account: guarded by `_ensure_login`, then sends
`GetAccount` with the given id. -/
def get_account (s : SessionState) (uid : String) : SessionState × CmdOutcome :=
  if s.logged_in then liftSend (sendrequestPre s "GetAccount" [("id", uid)] [])
  else (s, .notLoggedIn)

/-- OMMClient.subscribe_event: guarded by `_ensure_login`, then sends
`Subscribe` with an `e` child naming the event type. -/
def subscribe_event (s : SessionState) (event : String) : SessionState × CmdOutcome :=
  if s.logged_in then
    liftSend (sendrequestPre s "Subscribe" []
      [("e", [("cmd", "On"), ("eventType", event)])])
  else (s, .notLoggedIn)

/-- OMMClient.get_sari: guarded by `_ensure_login`, then sends `GetSARI`. -/
def get_sari (s : SessionState) : SessionState × CmdOutcome :=
  if s.logged_in then liftSend (sendrequestPre s "GetSARI" [] [])
  else (s, .notLoggedIn)

/-- OMMClient.get_systemname: guarded by `_ensure_login`, then sends
`GetSystemName`. -/
def get_systemname (s : SessionState) : SessionState × CmdOutcome :=
  if s.logged_in then liftSend (sendrequestPre s "GetSystemName" [] [])
  else (s, .notLoggedIn)

/-- OMMClient.get_limits: guarded by `_ensure_login`, then sends `Limits`. -/
def get_limits (s : SessionState) : SessionState × CmdOutcome :=
  if s.logged_in then liftSend (sendrequestPre s "Limits" [] [])
  else (s, .notLoggedIn)

/-- OMMClient.ping: guarded by `_ensure_login`, then sends `Ping`. -/
def ping (s : SessionState) : SessionState × CmdOutcome :=
  if s.logged_in then liftSend (sendrequestPre s "Ping" [] [])
  else (s, .notLoggedIn)

/-- OMMClient.delete_user: guarded by `_ensure_login`, then sends
`DeletePPUser` with uid and a fresh sequence number. -/
def delete_user (s : SessionState) (uid : String) : SessionState × CmdOutcome :=
  if s.logged_in then
    let q := getSequence s
    liftSend (sendrequestPre q.2 "DeletePPUser"
      [("uid", uid), ("seq", toString q.1)] [])
  else (s, .notLoggedIn)

/-- OMMClient.delete_device: guarded by `_ensure_login`, then sends
`DeletePPDev` with ppn and a fresh sequence number. -/
def delete_device (s : SessionState) (ppid : String) : SessionState × CmdOutcome :=
  if s.logged_in then
    let q := getSequence s
    liftSend (sendrequestPre q.2 "DeletePPDev"
      [("ppn", ppid), ("seq", toString q.1)] [])
  else (s, .notLoggedIn)

/-- OMMClient.get_device_state: guarded by `_ensure_login`, then sends
`GetPPState` with ppn and a fresh sequence number. -/
def get_device_state (s : SessionState) (ppn : String) : SessionState × CmdOutcome :=
  if s.logged_in then
    let q := getSequence s
    liftSend (sendrequestPre q.2 "GetPPState"
      [("ppn", ppn), ("seq", toString q.1)] [])
  else (s, .notLoggedIn)

/-- OMMClient.get_versions: deliberately not guarded by `_ensure_login`
(usable before login); sends `GetVersions`. -/
def get_versions (s : SessionState) : SessionState × CmdOutcome :=
  liftSend (sendrequestPre s "GetVersions" [] [])

/-- OMMClient.get_device: sends `GetPPDev` with a fresh sequence number and
the ppn. Note the source has no `_ensure_login` call here. -/
def get_device (s : SessionState) (ppn : String) : SessionState × CmdOutcome :=
  let q := getSequence s
  liftSend (sendrequestPre q.2 "GetPPDev"
    [("seq", toString q.1), ("ppn", ppn)] [])

/-! ## Dispatcher (OMMClient._dispatch) -/

/-- A synchronous invocation of an event sink by the dispatcher, with the
arguments the source passes: the decoded message name, root attributes and
folded children. -/
structure SinkCall where
  sink : String
  message : String
  attributes : AttrMap
  children : Children
deriving DecidableEq, Repr

/-- The event-handler names declared by the `` __events__ `` tuple of the
class (line 35 of OMMClient.py); an unsolicited frame of kind `X` arrives as
an envelope named `EventX` and belongs to handler `on_X`. -/
def events_decl : List String :=
  ["on_RFPState", "on_HealthState", "on_DECTSubscriptionMode", "on_PPDevCnf"]

/-- The correlation key `_dispatch` computes for a received envelope: the
decoded message name, suffixed with the `seq` root attribute when present. -/
def correlationKey (item : Doc) : String :=
  item.name ++ (match dictGet item.attributes "seq" with
                | some v => v
                | none => "")

/-- One iteration of the `_dispatch` loop body for one received item:
decode it; if it is named `EventDECTSubscriptionMode`, invoke the
`on_DECTSubscriptionMode` sink with the decoded contents and continue (this
is the only envelope name the dispatcher ever routes to a sink); otherwise
form the correlation key and, under the event lock, look up a waiter — if
one is registered, store the raw item on it and fire its event, else drop
the envelope silently. -/
def dispatchStep (s : SessionState) (item : Doc) : SessionState × Option SinkCall :=
  let r := parse_message item
  if r.1 = "EventDECTSubscriptionMode" then
    (s, some ⟨"on_DECTSubscriptionMode", r.1, r.2.1, r.2.2⟩)
  else
    let key := r.1 ++ (match dictGet r.2.1 "seq" with
                       | some v => v
                       | none => "")
    if (dictGet s.events key).isSome then
      ({ s with events := dictSet s.events key ⟨some item, true⟩ }, none)
    else (s, none)

/-! ## Credential-bearing requests (set_user_pin, create_user)

The PIN encryption primitive `encrypt_pin` lives in `OMMClient/utils.py`,
an external collaborator outside the session engine; per the spec it is the
interface `encryptSecret(plaintext, modulus, exponent) -> ciphertextString`.
It is taken as an arbitrary function parameter `encrypt` here, so the
theorems hold for every implementation of that interface. -/

/-- OMMClient.set_user_pin up to its blocking point: build the `user` child
with the uid and the PIN encrypted under the stored modulus/exponent, then
send `SetPPUser` with a fresh sequence number. `uid` is modelled already
stringified. -/
def set_user_pinPre (encrypt : String → String → String → String)
    (s : SessionState) (uid pin : String) : SessionState × SendOutcome :=
  let children : List (String × AttrMap) :=
    [("user", [("uid", uid), ("pin", encrypt pin s.modulus s.exponent)])]
  let q := getSequence s
  sendrequestPre q.2 "SetPPUser" [("seq", toString q.1)] children

/-- The `user` child dict OMMClient.create_user builds: mandatory name and
number, then each optional field appended when its argument is truthy
(Python: `None` and the empty string are both falsy; absent arguments are
modelled as the empty string), with `pin` and `sipPw` encrypted under the
stored modulus/exponent. -/
def create_userChildren (encrypt : String → String → String → String)
    (modulus exponent name number desc1 desc2 login pin sip_user sip_password : String) :
    List (String × AttrMap) :=
  let u : AttrMap := [("name", name), ("num", number)]
  let u := if desc1 = "" then u else u ++ [("hierarchy1", desc1)]
  let u := if desc2 = "" then u else u ++ [("hierarchy2", desc2)]
  let u := if login = "" then u else u ++ [("addId", login)]
  let u := if pin = "" then u else u ++ [("pin", encrypt pin modulus exponent)]
  let u := if sip_user = "" then u else u ++ [("sipAuthId", sip_user)]
  let u := if sip_password = "" then u
           else u ++ [("sipPw", encrypt sip_password modulus exponent)]
  [("user", u)]

/-- OMMClient.create_user up to its blocking point: build the user child and
send `CreatePPUser` with a fresh sequence number. -/
def create_userPre (encrypt : String → String → String → String)
    (s : SessionState)
    (name number desc1 desc2 login pin sip_user sip_password : String) :
    SessionState × SendOutcome :=
  let children := create_userChildren encrypt s.modulus s.exponent
    name number desc1 desc2 login pin sip_user sip_password
  let q := getSequence s
  sendrequestPre q.2 "CreatePPUser" [("seq", toString q.1)] children

/-- The value of one attribute of the `user` child of the last message put
on the send queue by a request (used to inspect what a credential-bearing
request carries on the wire). -/
def sentUserField (r : SessionState × SendOutcome) (field : String) : Option String :=
  match r.1.send_q.getLast? with
  | some d =>
    match dictGet d.children "user" with
    | some u => dictGet u field
    | none => none
  | none => none

/-! ## Attach / detach argument validation -/

/-- A Python argument as the `type(x) is int` guard sees it: either an
actual `int` (`bool` is not `int` for `type(...) is`), or anything else. -/
inductive PyArg
  | int (n : Int)
  | nonInt
deriving DecidableEq, Repr

/-- Outcome of attach/detach up to the blocking point: early `return False`,
or the request was handed to `_sendrequest`. -/
inductive BoolOutcome
  | returnedFalse
  | sent (o : SendOutcome)
deriving DecidableEq, Repr

/-- OMMClient.attach_user_device up to its blocking point: return `False`
immediately unless both ids are `int` and positive; otherwise send `SetPP`
with both relations set to `Dynamic` and a fresh sequence number. -/
def attach_user_device (s : SessionState) (uid ppn : PyArg) :
    SessionState × BoolOutcome :=
  match uid, ppn with
  | .int u, .int p =>
    if p ≤ 0 ∨ u ≤ 0 then (s, .returnedFalse)
    else
      let q := getSequence s
      let children : List (String × AttrMap) :=
        [("pp", [("uid", toString u), ("relType", "Dynamic"), ("ppn", toString p)]),
         ("user", [("uid", toString u), ("relType", "Dynamic"), ("ppn", toString p)])]
      let r := sendrequestPre q.2 "SetPP" [("seq", toString q.1)] children
      (r.1, .sent r.2)
  | _, _ => (s, .returnedFalse)

/-- OMMClient.detach_user_device up to its blocking point: return `False`
immediately unless both ids are `int` and positive; otherwise send `SetPP`
with both relations set to `Unbound` and a fresh sequence number. -/
def detach_user_device (s : SessionState) (uid ppn : PyArg) :
    SessionState × BoolOutcome :=
  match uid, ppn with
  | .int u, .int p =>
    if p ≤ 0 ∨ u ≤ 0 then (s, .returnedFalse)
    else
      let q := getSequence s
      let children : List (String × AttrMap) :=
        [("pp", [("uid", "0"), ("relType", "Unbound"), ("ppn", toString p)]),
         ("user", [("uid", toString u), ("relType", "Unbound"), ("ppn", "0")])]
      let r := sendrequestPre q.2 "SetPP" [("seq", toString q.1)] children
      (r.1, .sent r.2)
  | _, _ => (s, .returnedFalse)

/-- Validity of the id arguments as the attach/detach guard checks them:
both must be Python ints and strictly positive. -/
def validIds (uid ppn : PyArg) : Bool :=
  match uid, ppn with
  | .int u, .int p => decide (0 < u) && decide (0 < p)
  | _, _ => false

/-! ## Paginated listing (get_devices / get_users)

The backing record store lives on the OMM server, outside this repository.
Records are identified by their numeric id (`ppn` for devices, `uid` for
users); a record is modelled by its id. -/

/-- Modelled from the spec: the OMM server's answer to one `GetPPDev` /
`GetPPUser` page request (the server itself is not part of this repository).
Given the backing record set in ascending id order, it returns the records
with id at least the cursor, at most `maxRecords = 20` of them, in ascending
order ("fetches the next higher one if the given id does not exist"). -/
def serverPage (records : List Nat) (cursor : Nat) : List Nat :=
  (records.dropWhile (fun r => decide (r < cursor))).take 20

/-- The `while True` loop of OMMClient.get_devices: request a page at the
current cursor; if the response has no records, stop (that request still
counts); otherwise yield the page and, exactly when the page is full
(`len == MAX_RECORDS`), advance the cursor to one past the last record's id
and continue, else stop. Returns the yielded records and the number of page
requests issued. `fuel` bounds the recursion; it is chosen large enough to
never be hit. -/
def getDevicesLoop (records : List Nat) : Nat → Nat → List Nat × Nat
  | _, 0 => ([], 0)
  | cursor, fuel + 1 =>
    let page := serverPage records cursor
    if page.isEmpty then ([], 1)
    else if page.length = 20 then
      let next := getDevicesLoop records ((page.getLast?.getD 0) + 1) fuel
      (page ++ next.1, next.2 + 1)
    else (page, 1)

/-- OMMClient.get_devices run to exhaustion against a server holding
`records`: all yielded device records plus the number of requests issued,
starting from cursor `start_ppn`. -/
def get_devices (records : List Nat) (start_ppn : Nat) : List Nat × Nat :=
  getDevicesLoop records start_ppn (records.length + 1)

/-- The `while True` loop of OMMClient.get_users, structurally identical to
`getDevicesLoop` with `uid` in place of `ppn`. -/
def getUsersLoop (records : List Nat) : Nat → Nat → List Nat × Nat
  | _, 0 => ([], 0)
  | cursor, fuel + 1 =>
    let page := serverPage records cursor
    if page.isEmpty then ([], 1)
    else if page.length = 20 then
      let next := getUsersLoop records ((page.getLast?.getD 0) + 1) fuel
      (page ++ next.1, next.2 + 1)
    else (page, 1)

/-- OMMClient.get_users run to exhaustion against a server holding
`records`. -/
def get_users (records : List Nat) (start_uid : Nat) : List Nat × Nat :=
  getUsersLoop records start_uid (records.length + 1)

/-! ## Entity wrapper (types/LastPPAction.py) -/

/-- A `LastPPAction` instance: its `` __dict__ `` restricted to the named
data attributes (the `_ommclient` handle and the `_changelock` are modelled
out), plus the `_changes` dirty-field dict. -/
structure LastPPAction where
  dict : List (String × String)
  changes : List (String × String)
deriving DecidableEq, Repr

/-- LastPPAction.__init__: store each decoded attribute into `` __dict__ ``
in order, then set `localTimeStamp` (the wall-clock read `time.time()` is
passed in as `ts`). `_changes` starts empty. -/
def lastPPAction_init (attributes : List (String × String)) (ts : String) :
    LastPPAction :=
  ⟨dictSet (attributes.foldl (fun d p => dictSet d p.1 p.2) []) "localTimeStamp" ts,
   []⟩

/-- LastPPAction.__setattr__: raise exactly when the key is `"uid"` and a
`uid` entry already exists in `` __dict__ ``; otherwise record the change in
`_changes` and update `` __dict__ ``. -/
def lastPPAction_setattr (o : LastPPAction) (key value : String) :
    Except String LastPPAction :=
  if key = "uid" ∧ (dictGet o.dict "uid").isSome then
    .error "Cannot change uid !"
  else
    .ok ⟨dictSet o.dict key value, dictSet o.changes key value⟩

/-- LastPPAction.__getattr__: read an attribute by name from `` __dict__ ``
(`none` models the KeyError for a missing name). -/
def lastPPAction_getattr (o : LastPPAction) (item : String) : Option String :=
  dictGet o.dict item

/-! ## Concrete states used by witnesses and counterexamples -/

/-- A freshly constructed, not yet logged-in session. -/
def emptySession : SessionState := ⟨[], [], 0, false, "", ""⟩

/-- A logged-in session that already has a waiter registered under key
`"FooResp"` and an empty send queue. -/
def c1State : SessionState := ⟨[], [("FooResp", freshWaiter)], 0, true, "", ""⟩

/-- A logged-in session with one registered waiter, for the lost-response
scenario. -/
def c8State : SessionState := ⟨[], [("GetSARIResp", freshWaiter)], 3, true, "m", "e"⟩

/-- A correlated reply whose key (`"PingResp7"`) has no registered waiter in
`c8State`. -/
def c8Doc : Doc := ⟨"PingResp", [("seq", "7")], []⟩

/-! ## Claim theorems -/

/-- C1, amended (the original claim is refuted by `C1_counterexample`):
whenever the correlation key of a request already has a registered waiter,
`_sendrequest` raises the duplicate-waiter exception before registering a
second waiter and before blocking — the correlation table is left unchanged
— but only after the outbound message has been placed on the send queue, so
the transport pump may still write it to the socket. -/
theorem C1_theorem (s : SessionState) (message : String)
    (messagedata : List (String × String)) (children : List (String × AttrMap))
    (h : (dictGet s.events (responseKey message messagedata)).isSome = true) :
    sendrequestPre s message messagedata children =
      ({ s with send_q := s.send_q ++ [construct_message message messagedata children] },
       .dup (responseKey message messagedata)) := by
  simp [sendrequestPre, h]

/-- C1 witness: the amended theorem applied at a concrete session that is
already waiting for `"FooResp"`. -/
theorem C1_witness :
    (dictGet c1State.events (responseKey "Foo" [])).isSome = true ∧
    sendrequestPre c1State "Foo" [] [] =
      ({ c1State with send_q := c1State.send_q ++ [construct_message "Foo" [] []] },
       .dup (responseKey "Foo" [])) :=
  ⟨by decide, C1_theorem c1State "Foo" [] [] (by decide)⟩

/-- C1 counterexample to the claim as stated: with a waiter already
registered under `"FooResp"`, issuing the same request does raise the
duplicate-waiter error, but the outbound message has by then been placed on
the send queue — so the failure does not happen before all network I/O. -/
theorem C1_counterexample :
    (sendrequestPre c1State "Foo" [] []).2 = SendOutcome.dup "FooResp" ∧
    (sendrequestPre c1State "Foo" [] []).1.send_q ≠ c1State.send_q := by
  decide

/-- C2, amended (the original claim is refuted by `C2_counterexample`): the
commands that call `_ensure_login` — get_account, subscribe_event, get_sari,
get_systemname, get_limits, ping, delete_user, delete_device,
get_device_state — fail immediately with the not-logged-in error when the
session is not logged in, sending nothing and leaving the session state
unchanged; the remaining commands (e.g. get_device) perform no such check. -/
theorem C2_theorem (s : SessionState) (uid event ppid ppn : String)
    (h : s.logged_in = false) :
    get_account s uid = (s, .notLoggedIn) ∧
    subscribe_event s event = (s, .notLoggedIn) ∧
    get_sari s = (s, .notLoggedIn) ∧
    get_systemname s = (s, .notLoggedIn) ∧
    get_limits s = (s, .notLoggedIn) ∧
    ping s = (s, .notLoggedIn) ∧
    delete_user s uid = (s, .notLoggedIn) ∧
    delete_device s ppid = (s, .notLoggedIn) ∧
    get_device_state s ppn = (s, .notLoggedIn) := by
  simp [get_account, subscribe_event, get_sari, get_systemname, get_limits,
        ping, delete_user, delete_device, get_device_state, h]

/-- C2 witness: the amended theorem applied at a concrete not-logged-in
session. -/
theorem C2_witness :
    emptySession.logged_in = false ∧
    (get_account emptySession "1" = (emptySession, .notLoggedIn) ∧
     subscribe_event emptySession "HealthState" = (emptySession, .notLoggedIn) ∧
     get_sari emptySession = (emptySession, .notLoggedIn) ∧
     get_systemname emptySession = (emptySession, .notLoggedIn) ∧
     get_limits emptySession = (emptySession, .notLoggedIn) ∧
     ping emptySession = (emptySession, .notLoggedIn) ∧
     delete_user emptySession "1" = (emptySession, .notLoggedIn) ∧
     delete_device emptySession "2" = (emptySession, .notLoggedIn) ∧
     get_device_state emptySession "3" = (emptySession, .notLoggedIn)) :=
  ⟨rfl, C2_theorem emptySession "1" "HealthState" "2" "3" rfl⟩

/-- C2 counterexample to the claim as stated: `get_device` is a client
command other than `get_versions`, yet issued on a not-logged-in session it
does not fail with a not-logged-in error — it sends the request (the send
queue grows) and blocks on a waiter. -/
theorem C2_counterexample :
    emptySession.logged_in = false ∧
    (get_device emptySession "5").2 ≠ CmdOutcome.notLoggedIn ∧
    (get_device emptySession "5").1.send_q ≠ emptySession.send_q := by
  decide

/-- C8 (confirmed): dispatching a correlated envelope whose correlation key
has no registered waiter completes without error and leaves the whole
session state — correlation table included — unchanged: the envelope is
silently dropped and no orphaned state persists. -/
theorem C8_theorem (s : SessionState) (item : Doc)
    (h1 : item.name ≠ "EventDECTSubscriptionMode")
    (h2 : dictGet s.events (correlationKey item) = none) :
    dispatchStep s item = (s, none) := by
  have h2' : dictGet s.events
      (item.name ++ (match dictGet item.attributes "seq" with
                     | some v => v
                     | none => "")) = none := h2
  simp [dispatchStep, parse_message, h1, h2']

/-- C8 witness: the theorem applied to a concrete reply `"PingResp7"` for
which the concrete session has no waiter. -/
theorem C8_witness :
    c8Doc.name ≠ "EventDECTSubscriptionMode" ∧
    dictGet c8State.events (correlationKey c8Doc) = none ∧
    dispatchStep c8State c8Doc = (c8State, none) :=
  ⟨by decide, by decide, C8_theorem c8State c8Doc (by decide) (by decide)⟩

/-- A `LastPPAction` as built from a decoded `GetLastPPDevAction` reply: the
identity attribute of this device-action record is `ppn`. -/
def c9Action : LastPPAction :=
  lastPPAction_init [("ppn", "5"), ("trType", "Subscription")] "t0"

/-- C9 (code bug): the claim — the identity attribute is immutable after
construction — matches the spec's wrapper contract, but
`LastPPAction.__setattr__` only guards the key `"uid"`, an attribute a
`LastPPAction` never carries (its AXI attributes are `ppn`, `trType`,
`rfpId`, `relTime`); the guard is plainly copied from the user wrapper. The
identity attribute `ppn` of a concrete record is therefore reassigned
without error, while other attributes stay readable and assignable and a
(never occurring) `uid` entry would be protected. -/
theorem C9_theorem :
    lastPPAction_setattr c9Action "ppn" "6" =
      .ok ⟨[("ppn", "6"), ("trType", "Subscription"), ("localTimeStamp", "t0")],
           [("ppn", "6")]⟩ ∧
    lastPPAction_getattr c9Action "trType" = some "Subscription" ∧
    lastPPAction_setattr (LastPPAction.mk [("uid", "1")] []) "uid" "2" =
      .error "Cannot change uid !" := by
  refine ⟨?_, ?_, ?_⟩ <;> rfl

/-- C10 (confirmed): with an id argument that is not an int, or not strictly
positive, both `attach_user_device` and `detach_user_device` return `False`
immediately: no message is constructed or enqueued, no waiter is registered,
no sequence number is drawn — the session state is returned unchanged. -/
theorem C10_theorem (s : SessionState) (uid ppn : PyArg)
    (h : validIds uid ppn = false) :
    attach_user_device s uid ppn = (s, .returnedFalse) ∧
    detach_user_device s uid ppn = (s, .returnedFalse) := by
  cases uid with
  | nonInt => cases ppn <;> simp [attach_user_device, detach_user_device]
  | int u =>
    cases ppn with
    | nonInt => simp [attach_user_device, detach_user_device]
    | int p =>
      have hle : p ≤ 0 ∨ u ≤ 0 := by
        simp [validIds] at h
        omega
      simp [attach_user_device, detach_user_device, hle]

/-- An unsolicited health-state frame: its kind `HealthState` is one of the
declared event kinds (`on_HealthState` is in `` __events__ ``). -/
def c3HealthDoc : Doc := ⟨"EventHealthState", [("state", "OK")], []⟩

/-- An unsolicited DECT-subscription-mode frame. -/
def c3SubDoc : Doc := ⟨"EventDECTSubscriptionMode", [("mode", "Off")], []⟩

/-- C3, amended (the original claim is refuted by `C3_counterexample`): the
only envelope name the dispatcher routes to an event sink is
`EventDECTSubscriptionMode` — such a frame is delivered synchronously to the
`on_DECTSubscriptionMode` sink with the frame's decoded contents, with every
registered waiter and the rest of the session state untouched; an envelope
of any other name (including the other declared event kinds, e.g.
`EventHealthState`) is never dispatched to a sink and instead falls through
to the correlation lookup. -/
theorem C3_theorem (s s' : SessionState) (item item' : Doc)
    (h1 : item.name = "EventDECTSubscriptionMode")
    (h2 : item'.name ≠ "EventDECTSubscriptionMode") :
    dispatchStep s item =
      (s, some ⟨"on_DECTSubscriptionMode", item.name, item.attributes,
                parseChildren item.children 5000 []⟩) ∧
    (dispatchStep s' item').2 = none := by
  constructor
  · simp [dispatchStep, parse_message, h1]
  · simp only [dispatchStep, parse_message]
    rw [if_neg h2]
    split <;> rfl

/-- C3 witness: the amended theorem applied to a concrete subscription-mode
frame (sink invoked, waiters untouched) and a concrete health-state frame
(no sink invoked). -/
theorem C3_witness :
    c3SubDoc.name = "EventDECTSubscriptionMode" ∧
    c3HealthDoc.name ≠ "EventDECTSubscriptionMode" ∧
    (dispatchStep c1State c3SubDoc =
      (c1State, some ⟨"on_DECTSubscriptionMode", c3SubDoc.name, c3SubDoc.attributes,
                      parseChildren c3SubDoc.children 5000 []⟩) ∧
     (dispatchStep c1State c3HealthDoc).2 = none) :=
  ⟨rfl, by decide, C3_theorem c1State c1State c3SubDoc c3HealthDoc rfl (by decide)⟩

/-- C3 counterexample to the claim as stated: `EventHealthState` is a known
unsolicited-event name (`on_HealthState` is declared in `` __events__ ``),
yet when such a frame arrives the dispatcher does not invoke any event sink
— the frame falls through to the correlation lookup and is dropped. -/
theorem C3_counterexample :
    "on_HealthState" ∈ events_decl ∧
    (dispatchStep emptySession c3HealthDoc).2 = none := by
  decide

/-- Helper: whatever the correlation outcome, `_sendrequest` leaves the send
queue equal to the old queue with the constructed message appended. -/
theorem sendrequestPre_send_q (s : SessionState) (message : String)
    (messagedata : List (String × String)) (children : List (String × AttrMap)) :
    (sendrequestPre s message messagedata children).1.send_q =
      s.send_q ++ [construct_message message messagedata children] := by
  unfold sendrequestPre
  dsimp only
  split <;> rfl

/-- C7 (confirmed): for every implementation `encrypt` of the external
`encryptSecret(plaintext, modulus, exponent)` collaborator (utils.py is
outside the session engine), the request placed on the wire by
`set_user_pin` carries in its `user/pin` field exactly
`encrypt pin modulus exponent` for the stored key components, and likewise
`create_user` carries `encrypt pin …` in `user/pin` and
`encrypt sip_password …` in `user/sipPw`; the outbound request depends on
the plaintexts only through `encrypt` (requests coincide whenever the
ciphertexts coincide), so the plaintext PIN itself is never placed in the
request. -/
theorem C7_theorem (encrypt : String → String → String → String) (s : SessionState)
    (uid pin pin' name number desc1 desc2 login sip_user sip_password sip_password' : String)
    (hpin : pin ≠ "") (hpin' : pin' ≠ "")
    (hsp : sip_password ≠ "") (hsp' : sip_password' ≠ "")
    (he1 : encrypt pin s.modulus s.exponent = encrypt pin' s.modulus s.exponent)
    (he2 : encrypt sip_password s.modulus s.exponent =
           encrypt sip_password' s.modulus s.exponent) :
    sentUserField (set_user_pinPre encrypt s uid pin) "pin" =
      some (encrypt pin s.modulus s.exponent) ∧
    set_user_pinPre encrypt s uid pin = set_user_pinPre encrypt s uid pin' ∧
    sentUserField
      (create_userPre encrypt s name number desc1 desc2 login pin sip_user sip_password)
      "pin" = some (encrypt pin s.modulus s.exponent) ∧
    sentUserField
      (create_userPre encrypt s name number desc1 desc2 login pin sip_user sip_password)
      "sipPw" = some (encrypt sip_password s.modulus s.exponent) ∧
    create_userPre encrypt s name number desc1 desc2 login pin sip_user sip_password =
      create_userPre encrypt s name number desc1 desc2 login pin' sip_user sip_password' := by
  refine ⟨?_, ?_, ?_, ?_, ?_⟩
  · rw [sentUserField, set_user_pinPre]
    rw [sendrequestPre_send_q, List.getLast?_concat]
    simp [construct_message, dictGet]
  · rw [set_user_pinPre, set_user_pinPre, he1]
  · rw [sentUserField, create_userPre]
    rw [sendrequestPre_send_q, List.getLast?_concat]
    rw [create_userChildren]
    rw [if_neg hpin, if_neg hsp]
    split_ifs <;> simp [construct_message, dictGet]
  · rw [sentUserField, create_userPre]
    rw [sendrequestPre_send_q, List.getLast?_concat]
    rw [create_userChildren]
    rw [if_neg hpin, if_neg hsp]
    split_ifs <;> simp [construct_message, dictGet]
  · rw [create_userPre, create_userPre, create_userChildren, create_userChildren]
    rw [if_neg hpin, if_neg hpin', if_neg hsp, if_neg hsp', he1, he2]

/-- C7 witness: the theorem applied to a concrete cipher (a constant
function, so the two distinct plaintexts have equal ciphertexts), a concrete
session and concrete field values. -/
theorem C7_witness :
    ("12" : String) ≠ "" ∧ ("34" : String) ≠ "" ∧
    ("ab" : String) ≠ "" ∧ ("cd" : String) ≠ "" ∧
    (sentUserField (set_user_pinPre (fun _ _ _ => "CIPHER") c8State "7" "12") "pin" =
       some "CIPHER" ∧
     set_user_pinPre (fun _ _ _ => "CIPHER") c8State "7" "12" =
       set_user_pinPre (fun _ _ _ => "CIPHER") c8State "7" "34" ∧
     sentUserField
       (create_userPre (fun _ _ _ => "CIPHER") c8State "n" "100" "" "" "" "12" "" "ab")
       "pin" = some "CIPHER" ∧
     sentUserField
       (create_userPre (fun _ _ _ => "CIPHER") c8State "n" "100" "" "" "" "12" "" "ab")
       "sipPw" = some "CIPHER" ∧
     create_userPre (fun _ _ _ => "CIPHER") c8State "n" "100" "" "" "" "12" "" "ab" =
       create_userPre (fun _ _ _ => "CIPHER") c8State "n" "100" "" "" "" "34" "" "cd") :=
  ⟨by decide, by decide, by decide, by decide,
   by
    have h := C7_theorem (fun _ _ _ => "CIPHER") c8State "7" "12" "34" "n" "100"
      "" "" "" "" "ab" "cd" (by decide) (by decide) (by decide) (by decide) rfl rfl
    exact h⟩

/-- Helper: looking up the tag just folded in. The stored value becomes a
single map when the tag was new, a two-element list when it held a single
map, an appended list when it already held a list. -/
theorem dictGet_addChild_self (acc : Children) (tag : String) (m : AttrMap) :
    dictGet (addChild acc tag m) tag =
      some (match dictGet acc tag with
            | none => .one m
            | some (.one m0) => .many [m0, m]
            | some (.many ms) => .many (ms ++ [m])) := by
  induction acc with
  | nil => simp [addChild, dictGet]
  | cons p rest ih =>
    obtain ⟨t, v⟩ := p
    by_cases h : t = tag
    · subst h
      cases v <;> simp [addChild, dictGet]
    · simp [addChild, dictGet, h, ih]

/-- Helper: folding a child under one tag does not change the value stored
under any other tag. -/
theorem dictGet_addChild_ne (acc : Children) (tag t : String) (m : AttrMap)
    (h : t ≠ tag) : dictGet (addChild acc tag m) t = dictGet acc t := by
  have h' : tag ≠ t := Ne.symm h
  induction acc with
  | nil => simp [addChild, dictGet, h']
  | cons p rest ih =>
    obtain ⟨k, v⟩ := p
    by_cases hk : k = tag
    · subst hk
      simp [addChild, dictGet, h']
    · by_cases hkt : k = t
      · subst hkt
        simp [addChild, dictGet, hk]
      · simp [addChild, dictGet, hk, hkt, ih]

/-- Helper: unfolding one step of `foldOcc`. -/
theorem foldOcc_step (v : Option ChildVal) (m : AttrMap) (rest : List AttrMap) :
    foldOcc v (m :: rest) =
      foldOcc (some (match v with
                     | none => .one m
                     | some (.one m0) => .many [m0, m]
                     | some (.many ms) => .many (ms ++ [m]))) rest := by
  cases v with
  | none => rfl
  | some c => cases c <;> rfl

/-- Helper: once a tag's value is a list, further occurrences only append —
the promotion to a list is never reversed. -/
theorem foldOcc_many (rest : List AttrMap) :
    ∀ ms : List AttrMap, foldOcc (some (.many ms)) rest = some (.many (ms ++ rest)) := by
  induction rest with
  | nil => intro ms; simp [foldOcc]
  | cons m r ih =>
    intro ms
    rw [foldOcc, ih]
    simp

/-- Helper: the value `parse_message` stores under a tag is the fold of that
tag's occurrences (in document order) onto whatever the accumulator already
holds, provided the child cap is not hit. -/
theorem dictGet_parseChildren (cs : List (String × AttrMap)) :
    ∀ (fuel : Nat) (acc : Children) (t : String), cs.length ≤ fuel →
      dictGet (parseChildren cs fuel acc) t =
        foldOcc (dictGet acc t) (occurrences t cs) := by
  induction cs with
  | nil =>
    intro fuel acc t _
    cases fuel <;> simp [parseChildren, occurrences, foldOcc]
  | cons p rest ih =>
    intro fuel acc t h
    obtain ⟨tg, m⟩ := p
    cases fuel with
    | zero => simp at h
    | succ n =>
      rw [parseChildren, ih n (addChild acc tg m) t (by simpa using h)]
      by_cases htg : tg = t
      · subst htg
        rw [dictGet_addChild_self]
        have hocc : occurrences tg ((tg, m) :: rest) = m :: occurrences tg rest := by
          simp [occurrences]
        rw [hocc, foldOcc_step]
      · rw [dictGet_addChild_ne acc tg t m (fun he => htg he.symm)]
        have hocc : occurrences t ((tg, m) :: rest) = occurrences t rest := by
          simp [occurrences, htg]
        rw [hocc]

/-- C5 (confirmed): within one decode call, the value stored under a tag is
determined by that tag's occurrence list — absent for zero occurrences, the
single attribute map for exactly one, and the ordered list of all
occurrences for two or more (first occurrence stored as a map, second
promoting it to a two-element list, later ones appended); and once a tag
holds a list, folding any further child never reverses the promotion — the
list either grows at the end (same tag) or is untouched (other tag). -/
theorem C5_theorem (cs : List (String × AttrMap)) (t : String)
    (hlen : cs.length ≤ 5000)
    (acc : Children) (tag : String) (m : AttrMap) (ms : List AttrMap)
    (hacc : dictGet acc t = some (.many ms)) :
    dictGet (parseChildren cs 5000 []) t =
      (match occurrences t cs with
       | [] => none
       | [m0] => some (.one m0)
       | m0 :: m1 :: r => some (.many (m0 :: m1 :: r))) ∧
    dictGet (addChild acc tag m) t =
      some (.many (if tag = t then ms ++ [m] else ms)) := by
  constructor
  · rw [dictGet_parseChildren cs 5000 [] t hlen]
    have hnil : dictGet ([] : Children) t = none := rfl
    rw [hnil]
    match occurrences t cs with
    | [] => rfl
    | [m0] => rfl
    | m0 :: m1 :: r =>
      rw [foldOcc, foldOcc, foldOcc_many]
      rfl
  · by_cases h : tag = t
    · subst h
      rw [dictGet_addChild_self, hacc]
      simp
    · rw [dictGet_addChild_ne acc tag t m (fun he => h he.symm), hacc]
      simp [h]

/-- A concrete frame with tag `"a"` occurring three times and tag `"b"`
once, and a concrete accumulator already holding a list under `"a"`. -/
def c5Frame : List (String × AttrMap) :=
  [("a", [("x", "1")]), ("b", []), ("a", [("y", "2")]), ("a", [("z", "3")])]

/-- Accumulator for the C5 witness. -/
def c5Acc : Children := [("a", ChildVal.many [[("q", "0")]])]

/-- C5 witness: the theorem applied to the concrete frame — three `"a"`
children fold to the ordered three-element list — and to a concrete
list-valued accumulator, which only grows at the end. -/
theorem C5_witness :
    c5Frame.length ≤ 5000 ∧
    dictGet c5Acc "a" = some (ChildVal.many [[("q", "0")]]) ∧
    dictGet (parseChildren c5Frame 5000 []) "a" =
      some (ChildVal.many [[("x", "1")], [("y", "2")], [("z", "3")]]) ∧
    dictGet (addChild c5Acc "a" [("r", "9")]) "a" =
      some (ChildVal.many [[("q", "0")], [("r", "9")]]) := by
  have h := C5_theorem c5Frame "a" (by decide) c5Acc "a" [("r", "9")] [[("q", "0")]]
    (by decide)
  refine ⟨by decide, by decide, ?_, ?_⟩
  · rw [h.1]
    decide
  · rw [h.2]
    decide

/-- Helper: folding a child whose tag is not yet present appends it at the
end as a single map. -/
theorem addChild_fresh (acc : Children) (tag : String) (m : AttrMap)
    (h : dictGet acc tag = none) : addChild acc tag m = acc ++ [(tag, .one m)] := by
  induction acc with
  | nil => rfl
  | cons p rest ih =>
    obtain ⟨k, v⟩ := p
    by_cases hk : k = tag
    · subst hk
      simp [dictGet] at h
    · simp [addChild, hk]
      exact ih (by simpa [dictGet, hk] using h)

/-- Helper: a key absent from the first dict is looked up in the second. -/
theorem dictGet_append_right {α : Type} (l1 l2 : List (String × α)) (key : String)
    (h : dictGet l1 key = none) : dictGet (l1 ++ l2) key = dictGet l2 key := by
  induction l1 with
  | nil => rfl
  | cons p rest ih =>
    obtain ⟨k, v⟩ := p
    by_cases hk : k = key
    · simp [dictGet, hk] at h
    · simp [dictGet, hk] at h ⊢
      exact ih h

/-- Helper: folding children whose tags are pairwise distinct and absent
from the accumulator appends them in order, each as a single map. -/
theorem parseChildren_fresh :
    ∀ (cs : List (String × AttrMap)) (fuel : Nat) (acc : Children),
      cs.length ≤ fuel → (∀ p ∈ cs, dictGet acc p.1 = none) →
      (cs.map Prod.fst).Nodup →
      parseChildren cs fuel acc = acc ++ cs.map (fun p => (p.1, ChildVal.one p.2)) := by
  intro cs
  induction cs with
  | nil =>
    intro fuel acc _ _ _
    cases fuel <;> simp [parseChildren]
  | cons p rest ih =>
    intro fuel acc hlen hfresh hnodup
    obtain ⟨tg, m⟩ := p
    cases fuel with
    | zero => simp at hlen
    | succ n =>
      rw [parseChildren]
      have hacc : dictGet acc tg = none := hfresh (tg, m) (by simp)
      rw [addChild_fresh acc tg m hacc]
      have hnd : (rest.map Prod.fst).Nodup ∧ tg ∉ rest.map Prod.fst := by
        have h0 : (tg :: rest.map Prod.fst).Nodup := by simpa using hnodup
        exact ⟨(List.nodup_cons.mp h0).2, (List.nodup_cons.mp h0).1⟩
      rw [ih n _ (by simpa using hlen) ?_ hnd.1]
      · simp
      · intro q hq
        have h1 : dictGet acc q.1 = none := hfresh q (by simp [hq])
        have h2 : tg ≠ q.1 := by
          intro he
          exact hnd.2 (he ▸ List.mem_map_of_mem Prod.fst hq)
        rw [dictGet_append_right _ _ _ h1]
        simp [dictGet, h2]

/-- C4, amended (the original claim is refuted by `C4_counterexample`): for
every non-empty name, string-valued attribute map and children map of at
most 5000 entries — the decoder's defensive cap on processed children —
decoding the encoding reproduces the name and attributes exactly and the
children exactly as well: the encoder emits exactly one child per tag (its
children argument is a map), so every tag decodes back to its single
attribute map, which is the list-folding behaviour for single children. -/
theorem C4_theorem (name : String) (attributes : AttrMap)
    (children : List (String × AttrMap)) (hname : name ≠ "")
    (hnodup : (children.map Prod.fst).Nodup) (hlen : children.length ≤ 5000) :
    parse_message (construct_message name attributes children) =
      (name, attributes, children.map (fun p => (p.1, ChildVal.one p.2))) := by
  rw [parse_message, construct_message]
  rw [parseChildren_fresh children 5000 [] hlen (fun p _ => rfl) hnodup]
  rfl

/-- Children map for the C4 witness. -/
def c4Kids : List (String × AttrMap) := [("pp", [("ppn", "1")]), ("user", [("uid", "2")])]

/-- C4 witness: the amended theorem applied to a concrete envelope with two
distinct child tags. -/
theorem C4_witness :
    ("GetResult" : String) ≠ "" ∧ (c4Kids.map Prod.fst).Nodup ∧ c4Kids.length ≤ 5000 ∧
    parse_message (construct_message "GetResult" [("seq", "4")] c4Kids) =
      ("GetResult", [("seq", "4")], c4Kids.map (fun p => (p.1, ChildVal.one p.2))) :=
  ⟨by decide, by decide, by decide,
   C4_theorem "GetResult" [("seq", "4")] c4Kids (by decide) (by decide) (by decide)⟩

/-- Helper: folding one child grows the children dict by at most one key. -/
theorem addChild_length_le (acc : Children) (tag : String) (m : AttrMap) :
    (addChild acc tag m).length ≤ acc.length + 1 := by
  induction acc with
  | nil => simp [addChild]
  | cons p rest ih =>
    obtain ⟨k, v⟩ := p
    by_cases hk : k = tag <;> simp [addChild, hk] <;> omega

/-- Helper: the decoder's child loop can add at most `fuel` keys beyond the
accumulator — in particular a decode call stores at most 5000 child tags. -/
theorem parseChildren_length_le :
    ∀ (cs : List (String × AttrMap)) (fuel : Nat) (acc : Children),
      (parseChildren cs fuel acc).length ≤ acc.length + fuel := by
  intro cs
  induction cs with
  | nil =>
    intro fuel acc
    cases fuel <;> simp [parseChildren]
  | cons p rest ih =>
    intro fuel acc
    obtain ⟨tg, m⟩ := p
    cases fuel with
    | zero => simp [parseChildren]
    | succ n =>
      rw [parseChildren]
      have h1 := ih n (addChild acc tg m)
      have h2 := addChild_length_le acc tg m
      omega

/-- A children map with 5001 pairwise distinct tags, one past the decoder's
cap. -/
def capChildren : List (String × AttrMap) :=
  (List.range 5001).map (fun i => (String.mk (List.replicate (i + 1) 'a'), []))

/-- Helper: the 5001 tags of `capChildren` are pairwise distinct, so it is a
genuine children map. -/
theorem capChildren_keys_nodup : (capChildren.map Prod.fst).Nodup := by
  have hinj : Function.Injective (fun i : Nat => String.mk (List.replicate (i + 1) 'a')) := by
    intro i j hij
    have h2 := congrArg (fun s : String => s.data.length) hij
    simp at h2
    omega
  have hmm : capChildren.map Prod.fst =
      (List.range 5001).map (fun i => String.mk (List.replicate (i + 1) 'a')) := by
    rw [capChildren, List.map_map]
    rfl
  rw [hmm]
  exact List.Nodup.map hinj (List.nodup_range 5001)

/-- C4 counterexample to the claim as stated: a children map with 5001
distinct tags round-trips to only the first 5000 of them (the decoder caps
the processed children), so the decoded children do not reproduce the
encoded map. -/
theorem C4_counterexample :
    ("root" : String) ≠ "" ∧ (capChildren.map Prod.fst).Nodup ∧
    parse_message (construct_message "root" [] capChildren) ≠
      ("root", [], capChildren.map (fun p => (p.1, ChildVal.one p.2))) := by
  refine ⟨by decide, capChildren_keys_nodup, ?_⟩
  intro h
  have h3 := congrArg (fun x : String × AttrMap × Children => x.2.2.length) h
  simp only [parse_message, construct_message] at h3
  have hle : (parseChildren capChildren 5000 []).length ≤
      ([] : Children).length + 5000 :=
    parseChildren_length_le capChildren 5000 []
  have hR : (capChildren.map (fun p => (p.1, ChildVal.one p.2))).length = 5001 := by
    simp [capChildren]
  rw [hR] at h3
  simp at hle
  omega

/-- C10 witness: the theorem applied to a concrete non-positive uid and a
concrete non-integer ppn on a concrete session. -/
theorem C10_witness :
    validIds (PyArg.int 0) PyArg.nonInt = false ∧
    attach_user_device emptySession (PyArg.int 0) PyArg.nonInt =
      (emptySession, .returnedFalse) ∧
    detach_user_device emptySession (PyArg.int 0) PyArg.nonInt =
      (emptySession, .returnedFalse) :=
  ⟨by decide,
   (C10_theorem emptySession (PyArg.int 0) PyArg.nonInt (by decide)).1,
   (C10_theorem emptySession (PyArg.int 0) PyArg.nonInt (by decide)).2⟩


/-! ## Pagination lemmas (C6) -/

/-- Helper: when every element of the first list satisfies the predicate,
`dropWhile` over the concatenation skips the whole first list. -/
theorem dropWhile_all_append (p : Nat → Bool) (l1 l2 : List Nat)
    (h : ∀ x ∈ l1, p x = true) :
    (l1 ++ l2).dropWhile p = l2.dropWhile p := by
  induction l1 with
  | nil => rfl
  | cons a l ih =>
    simp only [List.cons_append,
      List.dropWhile_cons_of_pos (h a (List.mem_cons_self a l))]
    exact ih (fun x hx => h x (List.mem_cons_of_mem a hx))

/-- Helper: in a strictly ascending list every element is bounded by the
last one. -/
theorem mem_le_getLastD (l : List Nat) (hl : l.Pairwise (· < ·)) :
    ∀ x ∈ l, x ≤ l.getLast?.getD 0 := by
  induction l with
  | nil => intro x hx; simp at hx
  | cons a t ih =>
    intro x hx
    cases t with
    | nil =>
      simp at hx
      subst hx
      simp
    | cons b t2 =>
      rw [List.getLast?_cons_cons]
      have hpw := List.Pairwise.of_cons hl
      rcases List.mem_cons.mp hx with h1 | h2
      · subst h1
        have hab : x < b := (List.pairwise_cons.mp hl).1 b (by simp)
        have hbl : b ≤ (b :: t2).getLast?.getD 0 := ih hpw b (by simp)
        omega
      · exact ih hpw x h2

/-- Helper: the last element of a nonempty list is a member. -/
theorem getLastD_mem (l : List Nat) (h : l ≠ []) : l.getLast?.getD 0 ∈ l := by
  cases l with
  | nil => simp at h
  | cons a t =>
    rw [List.getLast?_eq_getLast (a :: t) h]
    simp [List.getLast_mem]

/-- Helper: `dropWhile` returns the `drop` at a cut point when the
predicate holds everywhere before it and fails everywhere after it. -/
theorem dropWhile_eq_drop_of (pr : Nat → Bool) (l : List Nat) (n : Nat)
    (h1 : ∀ x ∈ l.take n, pr x = true)
    (h2 : ∀ y ∈ l.drop n, pr y = false) :
    l.dropWhile pr = l.drop n := by
  conv_lhs => rw [← List.take_append_drop n l]
  rw [dropWhile_all_append pr _ _ h1]
  cases hq : l.drop n with
  | nil => rfl
  | cons y q' =>
    rw [List.dropWhile_cons_of_neg]
    have hy : y ∈ l.drop n := by rw [hq]; exact List.mem_cons_self y q'
    simp [h2 y hy]

/-- Helper: for a strictly ascending backing set, advancing the cursor to
one past the last id of a full page makes the next server scan return
exactly the records after that page: the suffix at the old cursor minus its
first 20 records. -/
theorem dropWhile_next_cursor (records : List Nat) (hs : records.Pairwise (· < ·))
    (c : Nat) (s : List Nat)
    (hsdef : records.dropWhile (fun r => decide (r < c)) = s)
    (h20 : 20 ≤ s.length) :
    records.dropWhile
      (fun r => decide (r < (s.take 20).getLast?.getD 0 + 1)) = s.drop 20 := by
  have hsplit : records.takeWhile (fun r => decide (r < c)) ++ s = records := by
    rw [← hsdef]
    exact List.takeWhile_append_dropWhile _ _
  have hpw : (records.takeWhile (fun r => decide (r < c)) ++ s).Pairwise (· < ·) := by
    rw [hsplit]; exact hs
  rw [List.pairwise_append] at hpw
  obtain ⟨-, hpwS, hcross⟩ := hpw
  have hsplit2 : s.take 20 ++ s.drop 20 = s := List.take_append_drop 20 s
  have hpw2 : (s.take 20 ++ s.drop 20).Pairwise (· < ·) := by
    rw [hsplit2]; exact hpwS
  rw [List.pairwise_append] at hpw2
  obtain ⟨hA, -, hAB⟩ := hpw2
  have htake_ne : s.take 20 ≠ [] := by
    intro hnil
    have hh := congrArg List.length hnil
    rw [List.length_take] at hh
    simp only [List.length_nil] at hh
    omega
  have hlast_mem : (s.take 20).getLast?.getD 0 ∈ s.take 20 :=
    getLastD_mem _ htake_ne
  have hlast_mem_s : (s.take 20).getLast?.getD 0 ∈ s :=
    List.take_subset 20 s hlast_mem
  rw [← hsplit]
  rw [dropWhile_all_append _ _ _ (fun x hx => by
    have hlt := hcross x hx _ hlast_mem_s
    simp
    omega)]
  apply dropWhile_eq_drop_of
  · intro x hx
    have hxle := mem_le_getLastD (s.take 20) hA x hx
    simp
    omega
  · intro y hy
    have hlt := hAB _ hlast_mem y hy
    simp
    omega

/-- Helper: the records with id at least 0 are all records. -/
theorem dropWhile_lt_zero (l : List Nat) : l.dropWhile (fun r => decide (r < 0)) = l := by
  cases l with
  | nil => rfl
  | cons a t =>
    rw [List.dropWhile_cons_of_neg]
    simp

/-- Helper: full behaviour of the get_devices loop against a strictly
ascending backing set: starting from any cursor it yields exactly the
records at or past the cursor and issues one request per full page plus one
final request (the one that returns a short or empty page). -/
theorem getDevicesLoop_spec (records : List Nat) (hs : records.Pairwise (· < ·)) :
    ∀ (fuel c : Nat),
      (records.dropWhile (fun r => decide (r < c))).length / 20 + 1 ≤ fuel →
      getDevicesLoop records c fuel =
        (records.dropWhile (fun r => decide (r < c)),
         (records.dropWhile (fun r => decide (r < c))).length / 20 + 1) := by
  intro fuel
  induction fuel with
  | zero => intro c h; omega
  | succ n ih =>
    intro c
    simp only [getDevicesLoop, serverPage]
    generalize hsdef : records.dropWhile (fun r => decide (r < c)) = s
    intro h
    by_cases h0 : s = []
    · rw [h0]
      simp
    · by_cases h20 : 20 ≤ s.length
      · have htake_len : (s.take 20).length = 20 := by
          rw [List.length_take]
          omega
        have hisEmpty : ¬ (s.take 20).isEmpty = true := by
          intro hemp
          rw [List.isEmpty_iff] at hemp
          have hh := congrArg List.length hemp
          rw [htake_len] at hh
          simp at hh
        rw [if_neg hisEmpty, if_pos htake_len]
        have hnext := dropWhile_next_cursor records hs c s hsdef h20
        have harith : (s.drop 20).length / 20 + 1 = s.length / 20 := by
          rw [List.length_drop]
          obtain ⟨k, hk⟩ : ∃ k, s.length = k + 20 := ⟨s.length - 20, by omega⟩
          rw [hk, Nat.add_div_right k (by omega), Nat.add_sub_cancel]
        have hfuel2 : (records.dropWhile (fun r => decide (r <
            (s.take 20).getLast?.getD 0 + 1))).length / 20 + 1 ≤ n := by
          rw [hnext]
          omega
        rw [ih _ hfuel2, hnext]
        rw [List.take_append_drop]
        have hfinal : (s.drop 20).length / 20 + 1 + 1 = s.length / 20 + 1 := by omega
        rw [hfinal]
      · have htake : s.take 20 = s := List.take_of_length_le (by omega)
        have hisEmpty : ¬ (s.take 20).isEmpty = true := by
          rw [htake]
          simpa [List.isEmpty_iff] using h0
        have hlen20 : ¬ (s.take 20).length = 20 := by
          rw [htake]
          omega
        rw [if_neg hisEmpty, if_neg hlen20, htake]
        rw [Nat.div_eq_of_lt (by omega)]

/-- Helper: get_users runs the very same loop as get_devices (the source
duplicates the loop with `uid` in place of `ppn`). -/
theorem getUsersLoop_eq (records : List Nat) :
    ∀ (fuel c : Nat), getUsersLoop records c fuel = getDevicesLoop records c fuel := by
  intro fuel
  induction fuel with
  | zero => intro c; rfl
  | succ n ih =>
    intro c
    rw [getUsersLoop, getDevicesLoop]
    simp only [ih]
/-- C6, amended (the original claim is refuted by `C6_counterexample`): a
finite backing record set of size `k`, served in ascending id order in pages
of at most `p = 20` records, makes `get_devices` / `get_users` yield exactly
the `k` records and issue `floor(k/p) + 1` page requests: that is `ceil(k/p)`
requests when `k` is not a multiple of `p`, but `ceil(k/p) + 1` when `k` is a
positive multiple of `p` — each exactly-full page, the last one included,
triggers one further request, so an exactly-full last page costs one extra
empty round trip — and one request when `k = 0`. -/
theorem C6_theorem (records users : List Nat)
    (h1 : records.Pairwise (· < ·)) (h2 : users.Pairwise (· < ·)) :
    get_devices records 0 = (records, records.length / 20 + 1) ∧
    get_users users 0 = (users, users.length / 20 + 1) := by
  constructor
  · have hz := dropWhile_lt_zero records
    have hfuel : (records.dropWhile (fun r => decide (r < 0))).length / 20 + 1 ≤
        records.length + 1 := by
      rw [hz]
      have := Nat.div_le_self records.length 20
      omega
    have h := getDevicesLoop_spec records h1 (records.length + 1) 0 hfuel
    rw [get_devices, h, hz]
  · have hz := dropWhile_lt_zero users
    have hfuel : (users.dropWhile (fun r => decide (r < 0))).length / 20 + 1 ≤
        users.length + 1 := by
      rw [hz]
      have := Nat.div_le_self users.length 20
      omega
    have h := getDevicesLoop_spec users h2 (users.length + 1) 0 hfuel
    rw [get_users, getUsersLoop_eq, h, hz]

/-- C6 witness: the amended theorem applied to a concrete three-record
device store and a concrete one-record user store — three records fit in one
short page, so one request each. -/
theorem C6_witness :
    ([3, 7, 9] : List Nat).Pairwise (· < ·) ∧
    ([4] : List Nat).Pairwise (· < ·) ∧
    (get_devices [3, 7, 9] 0 = ([3, 7, 9], [3, 7, 9].length / 20 + 1) ∧
     get_users [4] 0 = ([4], [4].length / 20 + 1)) :=
  ⟨by decide, by decide, C6_theorem [3, 7, 9] [4] (by decide) (by decide)⟩

/-- C6 counterexample to the claim as stated: for `k = 20` records — an
exact multiple of the page size — the claim predicts `ceil(20/20) = 1` page
request, but the loop issues 2 (the exactly-full first page triggers a
second, empty request); the 20 records themselves are all yielded. -/
theorem C6_counterexample :
    (List.range 20).Pairwise (· < ·) ∧
    (get_devices (List.range 20) 0).1 = List.range 20 ∧
    (get_devices (List.range 20) 0).2 = 2 ∧
    (20 + 20 - 1) / 20 = 1 := by
  decide
